import Mathlib

/-!
Verification of the FlatBuffers-schema (`.fbs`) parser of this repository
(`FBSParser` in `parser.py`) against its natural-language specification.

The parser is shallowly embedded: every Python string operation used by the
source (`str.strip` with and without a character set, `str.splitlines` on
newline-separated content, `str.split`, `"\n".join`, `int(...)`) is modelled
as an executable Lean function over `List Char`, the regular expressions of
the source are modelled as deterministic matchers that agree with the greedy
semantics of `re.match` on those particular patterns (none of them requires
backtracking), and exceptions (`IndexError` from out-of-range list indexing,
`ValueError` from `int` conversion and tuple unpacking) are modelled with
`Except`.  The top-level scan loop of `_parse_file`, which advances a cursor
by at least one line per iteration, is given `lines.length + 1` units of
fuel, which it can therefore never exhaust.
-/

namespace Fbs

/-! ### Python string primitives -/

/-- Python whitespace characters relevant to `str.strip()` / `\s`. -/
def wsChar (c : Char) : Bool :=
  c = ' ' || c = '\t' || c = '\n' || c = '\r' || c = '\x0b' || c = '\x0c'

/-- Characters matched by the regex class `\w` on ASCII input. -/
def wordChar (c : Char) : Bool := c.isAlpha || c.isDigit || c = '_'

/-- Left trim by a predicate (Python `lstrip`). -/
def ltrimP (p : Char → Bool) (cs : List Char) : List Char := cs.dropWhile p

/-- Right trim by a predicate (Python `rstrip`). -/
def rtrimP (p : Char → Bool) (cs : List Char) : List Char :=
  (cs.reverse.dropWhile p).reverse

/-- Trim both ends by a predicate (Python `strip(chars)`). -/
def stripP (p : Char → Bool) (cs : List Char) : List Char :=
  rtrimP p (ltrimP p cs)

/-- Python `s.strip()` (default whitespace strip). -/
def sstrip (s : String) : String := ⟨stripP wsChar s.data⟩

/-- Drop a literal from the front of a character list; `none` when the list
does not start with the literal. -/
def dropLit : List Char → List Char → Option (List Char)
  | [], cs => some cs
  | _ :: _, [] => none
  | l :: ls, c :: cs => if c = l then dropLit ls cs else none

/-- Python `s.startswith(lit)`. -/
def startsWithL (s : String) (lit : List Char) : Bool :=
  (dropLit lit s.data).isSome

/-- Python `s.endswith(lit)`. -/
def endsWithL (s : String) (lit : List Char) : Bool :=
  (dropLit lit.reverse s.data.reverse).isSome

/-- Python `str.split(sep)` for a one-character separator: no collapsing of
adjacent separators, `"".split(sep) = [""]`. -/
def splitOnC (sep : Char) : List Char → List (List Char)
  | [] => [[]]
  | c :: cs =>
    let r := splitOnC sep cs
    if c = sep then [] :: r
    else
      match r with
      | [] => [[c]]
      | h :: t => (c :: h) :: t

/-- Join character-list lines with a newline (Python `"\n".join`). -/
def joinNlC : List (List Char) → List Char
  | [] => []
  | [x] => x
  | x :: y :: t => x ++ '\n' :: joinNlC (y :: t)

/-- Python `str.splitlines` for newline-separated content: splits on
`'\n'` and drops the final empty piece produced by a trailing newline. -/
def pySplitlines (content : String) : List String :=
  let ps := splitOnC '\n' content.data
  ((if ps.getLast? = some [] then ps.dropLast else ps).map
    fun cs => (⟨cs⟩ : String))

/-- Value of a nonempty all-digit run, accumulator form. -/
def digitsValAux : List Char → Nat → Option Nat
  | [], acc => some acc
  | c :: cs, acc =>
    if c.isDigit then digitsValAux cs (acc * 10 + (c.toNat - 48)) else none

/-- Value of a nonempty all-digit run; `none` for an empty or non-digit run. -/
def digitsVal : List Char → Option Nat
  | [] => none
  | c :: cs => digitsValAux (c :: cs) 0

/-- Python `int(s)` on base-10 input: optional surrounding whitespace,
optional sign, one or more digits. -/
def pyInt (s : String) : Option Int :=
  let cs := stripP wsChar s.data
  match cs with
  | '-' :: ds => (digitsVal ds).map fun n => -(n : Int)
  | '+' :: ds => (digitsVal ds).map fun n => (n : Int)
  | ds => (digitsVal ds).map fun n => (n : Int)

/-- Is `needle` a contiguous substring of `hay`? -/
def containsSub : List Char → List Char → Bool
  | [], needle => (dropLit needle []).isSome
  | c :: t, needle => (dropLit needle (c :: t)).isSome || containsSub t needle

/-- String-level substring test. -/
def strMentions (s sub : String) : Bool := containsSub s.data sub.data

/-! ### Data model (the `self.data` dictionary of `FBSParser`) -/

/-- One parsed field of a struct or table (`_parse_fields` entry). -/
structure FieldDef where
  type : String
  default : Option String
  metadata : Option String
  doc : Option String
  ref : Option String
deriving DecidableEq

/-- One parsed enum (`self.data["enums"]` entry).  The source stores `None`
for an enumerator without an explicit value, hence `Option Int`. -/
structure EnumDef where
  base_type : String
  values : List (String × Option Int)
  doc : Option String
deriving DecidableEq

/-- One parsed union (`self.data["unions"]` entry). -/
structure UnionDef where
  types : List String
  doc : Option String
deriving DecidableEq

/-- One parsed struct or table: the source builds the identical dictionary
shape `{"fields": ..., "doc": ...}` for both categories. -/
structure TypeBody where
  fields : List (String × FieldDef)
  doc : Option String
deriving DecidableEq

/-- The `self.data` dictionary of `FBSParser`.  Python dictionaries preserve
insertion order, hence association lists. -/
structure Document where
  nspace : Option String
  attributes : List String
  enums : List (String × EnumDef)
  unions : List (String × UnionDef)
  structs : List (String × TypeBody)
  tables : List (String × TypeBody)
  root_type : Option String
deriving DecidableEq

/-- The initial `self.data` of `FBSParser.__init__`. -/
def emptyDocument : Document := ⟨none, [], [], [], [], [], none⟩

/-- Exceptions the source can raise while parsing: `IndexError` from
`lines[i]`, `ValueError` from `int(...)` (carrying the offending literal),
and `ValueError` from unpacking `item.split("=")` into two names. -/
inductive PErr where
  | indexError : PErr
  | intParseError : String → PErr
  | unpackError : PErr
deriving DecidableEq

/-- The message text of each modelled Python exception. -/
def errText : PErr → String
  | .indexError => "list index out of range"
  | .intParseError lit => "invalid literal for int() with base 10: '" ++ lit ++ "'"
  | .unpackError => "too many values to unpack (expected 2)"

/-- Python dictionary assignment `d[k] = v`: replace in place when the key
exists (keeping its position), otherwise append. -/
def insertRep {α : Type} : List (String × α) → String → α → List (String × α)
  | [], k, v => [(k, v)]
  | (k', v') :: t, k, v =>
    if k' = k then (k, v) :: t else (k', v') :: insertRep t k v

/-- Python dictionary lookup `d[k]` / `k in d`. -/
def lookupA {α : Type} : List (String × α) → String → Option α
  | [], _ => none
  | (k', v) :: t, k => if k' = k then some v else lookupA t k

/-! ### Regular-expression matchers

Each matcher is the deterministic reading of the corresponding `re.match`
pattern of the source.  For these particular patterns greedy matching never
needs to backtrack: every repeated class is disjoint from the character that
follows it, and the two optional trailing groups of the field pattern are
followed only by the end of the pattern. -/

/-- `re.match(r"namespace\s+([\w\.]+)\s*;", line)`, returning the captured
dotted name. -/
def matchNamespace (line : String) : Option String :=
  match dropLit "namespace".data line.data with
  | none => none
  | some r =>
    match r with
    | c :: _ =>
      if wsChar c then
        let r1 := r.dropWhile wsChar
        let nm := r1.takeWhile fun c => wordChar c || c = '.'
        if nm.isEmpty then none
        else
          match (r1.drop nm.length).dropWhile wsChar with
          | ';' :: _ => some ⟨nm⟩
          | _ => none
      else none
    | [] => none

/-- `re.match(r'attribute\s+"([^"]+)"\s*;', line)`, returning the quoted
attribute name. -/
def matchAttribute (line : String) : Option String :=
  match dropLit "attribute".data line.data with
  | none => none
  | some r =>
    match r with
    | c :: _ =>
      if wsChar c then
        match r.dropWhile wsChar with
        | '\"' :: r1 =>
          let nm := r1.takeWhile fun c => ¬ (c = '\"')
          if nm.isEmpty then none
          else
            match r1.drop nm.length with
            | '\"' :: r2 =>
              match r2.dropWhile wsChar with
              | ';' :: _ => some ⟨nm⟩
              | _ => none
            | _ => none
        | _ => none
      else none
    | [] => none

/-- `re.match(r"enum\s+(\w+)\s*:\s*(\w+)\s*{", line)`, returning the enum
name and its base type. -/
def matchEnumHead (line : String) : Option (String × String) :=
  match dropLit "enum".data line.data with
  | none => none
  | some r =>
    match r with
    | c :: _ =>
      if wsChar c then
        let r1 := r.dropWhile wsChar
        let nm := r1.takeWhile wordChar
        if nm.isEmpty then none
        else
          match (r1.drop nm.length).dropWhile wsChar with
          | ':' :: r2 =>
            let r3 := r2.dropWhile wsChar
            let bt := r3.takeWhile wordChar
            if bt.isEmpty then none
            else
              match (r3.drop bt.length).dropWhile wsChar with
              | '\x7b' :: _ => some (⟨nm⟩, ⟨bt⟩)
              | _ => none
          | _ => none
      else none
    | [] => none

/-- `re.match(r"<kw>\s+(\w+)\s*{", line)` for `union`, `struct` and
`table` headers, returning the declared name. -/
def matchKwName (kw : List Char) (line : String) : Option String :=
  match dropLit kw line.data with
  | none => none
  | some r =>
    match r with
    | c :: _ =>
      if wsChar c then
        let r1 := r.dropWhile wsChar
        let nm := r1.takeWhile wordChar
        if nm.isEmpty then none
        else
          match (r1.drop nm.length).dropWhile wsChar with
          | '\x7b' :: _ => some ⟨nm⟩
          | _ => none
      else none
    | [] => none

/-- `re.match(r"root_type\s+(\w+)\s*;", line)`, returning the root type
name. -/
def matchRootType (line : String) : Option String :=
  match dropLit "root_type".data line.data with
  | none => none
  | some r =>
    match r with
    | c :: _ =>
      if wsChar c then
        let r1 := r.dropWhile wsChar
        let nm := r1.takeWhile wordChar
        if nm.isEmpty then none
        else
          match (r1.drop nm.length).dropWhile wsChar with
          | ';' :: _ => some ⟨nm⟩
          | _ => none
      else none
    | [] => none

/-- Characters of the regex class `[\w\[\]]` (a type token, possibly
vector-bracketed). -/
def typeChar (c : Char) : Bool := wordChar c || c = '[' || c = ']'

/-- Characters of the regex class `[^()]`. -/
def nonParen (c : Char) : Bool := ¬ (c = '(' || c = ')')

/-- `re.match(r"(\w+)\s*:\s*([\w\[\]]+)(\s*=\s*[^()]+)?(\s*\([^)]*\))?", line)`,
returning the four captured groups (name, type, optional default group,
optional metadata group), each group the exact text it spans. -/
def matchField (line : String) :
    Option (String × String × Option String × Option String) :=
  let cs := line.data
  let g1 := cs.takeWhile wordChar
  if g1.isEmpty then none
  else
    match (cs.drop g1.length).dropWhile wsChar with
    | ':' :: r3a =>
      let r3 := r3a.dropWhile wsChar
      let g2 := r3.takeWhile typeChar
      if g2.isEmpty then none
      else
        let r4 := r3.drop g2.length
        let wsp := r4.takeWhile wsChar
        let g3r : Option (List Char) × List Char :=
          match r4.drop wsp.length with
          | '=' :: r5 =>
            let run := r5.takeWhile nonParen
            if run.isEmpty then (none, r4)
            else (some (wsp ++ '=' :: run), r5.drop run.length)
          | _ => (none, r4)
        let r6 := g3r.2
        let wsp2 := r6.takeWhile wsChar
        let g4 : Option (List Char) :=
          match r6.drop wsp2.length with
          | '(' :: r7 =>
            let run2 := r7.takeWhile fun c => ¬ (c = ')')
            (match r7.drop run2.length with
             | ')' :: _ => some (wsp2 ++ '(' :: (run2 ++ [')']))
             | _ => none)
          | _ => none
        some (⟨g1⟩, ⟨g2⟩, g3r.1.map fun x => (⟨x⟩ : String),
              g4.map fun x => (⟨x⟩ : String))
    | _ => none

/-! ### Block extraction (`_collect_block`) -/

/-- Occurrences of a character in a line (`line.count(c)`). -/
def countCh (c : Char) (s : String) : Nat := (s.data.filter (· = c)).length

/-- The scan loop of `_collect_block`: accumulate raw lines while tracking
brace depth; stop when depth returns to zero.  Returns the accumulated lines
and the number of lines consumed; when the input runs out before depth
returns to zero the count overshoots by one, exactly as `i + 1` does in the
source after the `while` loop falls through. -/
def cbAux : List String → Int → List String × Nat
  | [], _ => ([], 1)
  | l :: ls, d =>
    let d' := d + (countCh '\x7b' l : Int) - (countCh '\x7d' l : Int)
    if d' = 0 then ([l], 1)
    else
      let r := cbAux ls d'
      (l :: r.1, r.2 + 1)

/-- `re.sub(r"^[^{]*{", "", body, count=1)`: find the first open brace. -/
def dtbAux : List Char → Option (List Char)
  | [] => none
  | c :: t => if c = '\x7b' then some t else dtbAux t

/-- Remove everything up to and including the first open brace (no change
when there is none). -/
def dropToBrace (cs : List Char) : List Char := (dtbAux cs).getD cs

/-- Helper for `dropFromLastBrace`: find the first close brace. -/
def dtbAux2 : List Char → Option (List Char)
  | [] => none
  | c :: t => if c = '\x7d' then some t else dtbAux2 t

/-- Remove everything from the last close brace on (`re.sub(r"}[^}]*$", ...)`;
no change when there is none). -/
def dropFromLastBrace (cs : List Char) : List Char :=
  match dtbAux2 cs.reverse with
  | none => cs
  | some r => r.reverse

/-- `_collect_block` on the remaining lines (the construct's opening line
first): the stripped interior body and the number of lines consumed. -/
def collectBlock (rem : List String) : String × Nat :=
  let r := cbAux rem 0
  (⟨stripP wsChar (dropFromLastBrace (dropToBrace
      (joinNlC (r.1.map String.data))))⟩, r.2)

/-! ### Enum interiors (`_parse_enum_values`) -/

/-- Loop of `_parse_enum_values` over the comma-separated items of an enum
body.  An item containing `=` must split into exactly a name and a base-10
integer; `int(v.strip())` failing raises `ValueError` carrying the literal,
and more than one `=` makes `k, v = item.split("=")` raise the unpacking
`ValueError`. -/
def pevAux : List (List Char) → List (String × Option Int) →
    Except PErr (List (String × Option Int))
  | [], acc => .ok acc
  | item :: rest, acc =>
    let it := stripP wsChar item
    if it.isEmpty then pevAux rest acc
    else if it.contains '=' then
      match splitOnC '=' it with
      | [k, v] =>
        let vs : String := ⟨stripP wsChar v⟩
        (match pyInt vs with
         | some n => pevAux rest (insertRep acc ⟨stripP wsChar k⟩ (some n))
         | none => .error (.intParseError vs))
      | _ => .error .unpackError
    else pevAux rest (insertRep acc ⟨it⟩ none)

/-- `_parse_enum_values(body)`. -/
def parseEnumValues (body : String) : Except PErr (List (String × Option Int)) :=
  pevAux (splitOnC ',' body.data) []

/-! ### Struct/table interiors (`_parse_fields`) -/

/-- `"\n".join(buf)` at the `String` level. -/
def strJoinNl (buf : List String) : String := ⟨joinNlC (buf.map String.data)⟩

/-- The doc value attached on finalization: `"\n".join(buf).strip()` when the
buffer is nonempty, `None` otherwise. -/
def docOfBuf (buf : List String) : Option String :=
  if buf.isEmpty then none else some (sstrip (strJoinNl buf))

/-- Entry text of a triple-slash comment line: `line.lstrip("/ ").strip()`. -/
def slashDocEntry (line : String) : String :=
  ⟨stripP wsChar (ltrimP (fun c => c = '/' || c = ' ') line.data)⟩

/-- Interior block-comment entry of `_parse_fields`:
`line.strip("/* ").strip("*/").strip()`. -/
def blockDocEntry (line : String) : String :=
  ⟨stripP wsChar (stripP (fun c => c = '*' || c = '/')
      (stripP (fun c => c = '/' || c = '*' || c = ' ') line.data))⟩

/-- Loop of `_parse_fields` over the body's lines, carrying the local doc
buffer.  `localTypes` is the set of enum/struct/table names declared in
`self.data` at call time. -/
def pfAux (localTypes : List String) :
    List String → List (String × FieldDef) → List String →
    List (String × FieldDef)
  | [], acc, _ => acc
  | raw :: rest, acc, buf =>
    let line := sstrip raw
    if startsWithL line ['/', '/', '/'] then
      pfAux localTypes rest acc (buf ++ [slashDocEntry line])
    else if startsWithL line ['/', '*'] then
      let bl := blockDocEntry line
      pfAux localTypes rest acc (if bl = "" then buf else buf ++ [bl])
    else if line = "" || startsWithL line ['\x7d'] then
      pfAux localTypes rest acc buf
    else
      match matchField line with
      | some (nm, ft, df, mt) =>
        let ftype := sstrip ft
        let fd : FieldDef :=
          ⟨ftype,
           df.map fun d => ⟨stripP (fun c => c = ' ' || c = '=') d.data⟩,
           mt.map fun m => ⟨stripP (fun c => c = '(' || c = ')') m.data⟩,
           docOfBuf buf,
           if localTypes.contains ftype then some ftype else none⟩
        pfAux localTypes rest (insertRep acc nm fd) []
      | none => pfAux localTypes rest acc buf

/-- `_parse_fields(body)` given the local type names of the current
document state. -/
def parseFields (body : String) (localTypes : List String) :
    List (String × FieldDef) :=
  pfAux localTypes (pySplitlines body) [] []

/-- `set(enums) | set(structs) | set(tables)` of the current state (only
membership is ever used). -/
def localTypeNames (st : Document) : List String :=
  st.enums.map Prod.fst ++ st.structs.map Prod.fst ++ st.tables.map Prod.fst

/-! ### Top-level scan (`_parse_file`) -/

/-- Entry text of the opening line of a top-level block comment:
`line.lstrip("/* ").rstrip("*/").strip()`. -/
def blockFirstEntry (line : String) : String :=
  ⟨stripP wsChar (rtrimP (fun c => c = '*' || c = '/')
      (ltrimP (fun c => c = '/' || c = '*' || c = ' ') line.data))⟩

/-- The `while not lines[i].strip().endswith("*/")` scan of `_parse_file`:
given the current raw line and the lines after it, collect the entries of
the subsequent consumed lines and their count; walking past the last line
is the source's `IndexError`. -/
def bcAux : String → List String → Except PErr (List String × Nat)
  | cur, rest =>
    if endsWithL (sstrip cur) ['*', '/'] then .ok ([], 0)
    else
      match rest with
      | [] => .error .indexError
      | nxt :: t =>
        match bcAux nxt t with
        | .error e => .error e
        | .ok (es, n) => .ok (blockDocEntry nxt :: es, n + 1)

/-- Set the namespace field (`self.data["namespace"] = ...`). -/
def withNs (st : Document) (v : Option String) : Document :=
  ⟨v, st.attributes, st.enums, st.unions, st.structs, st.tables, st.root_type⟩

/-- Append an attribute (`self.data["attributes"].append(...)`). -/
def addAttr (st : Document) (a : String) : Document :=
  ⟨st.nspace, st.attributes ++ [a], st.enums, st.unions, st.structs,
   st.tables, st.root_type⟩

/-- Store an enum (`self.data["enums"][name] = ...`). -/
def putEnum (st : Document) (nm : String) (e : EnumDef) : Document :=
  ⟨st.nspace, st.attributes, insertRep st.enums nm e, st.unions, st.structs,
   st.tables, st.root_type⟩

/-- Store a union. -/
def putUnion (st : Document) (nm : String) (u : UnionDef) : Document :=
  ⟨st.nspace, st.attributes, st.enums, insertRep st.unions nm u, st.structs,
   st.tables, st.root_type⟩

/-- Store a struct. -/
def putStruct (st : Document) (nm : String) (b : TypeBody) : Document :=
  ⟨st.nspace, st.attributes, st.enums, st.unions, insertRep st.structs nm b,
   st.tables, st.root_type⟩

/-- Store a table. -/
def putTable (st : Document) (nm : String) (b : TypeBody) : Document :=
  ⟨st.nspace, st.attributes, st.enums, st.unions, st.structs,
   insertRep st.tables nm b, st.root_type⟩

/-- Set the root type. -/
def withRoot (st : Document) (v : Option String) : Document :=
  ⟨st.nspace, st.attributes, st.enums, st.unions, st.structs, st.tables, v⟩

/-- The `while i < len(lines)` loop of `_parse_file`, carrying the remaining
raw lines, the pending doc buffer and the document built so far.  Every
iteration of the source advances the cursor by at least one line, so the
fuel supplied by `fbsParseLines` (`lines.length + 1`) is never exhausted;
the fuel-exhaustion branch is unreachable. -/
def parseLoopF : Nat → List String → List String → Document →
    Except PErr Document
  | _, [], _, st => .ok st
  | 0, _ :: _, _, _ => .error .indexError
  | fuel + 1, raw :: rest, buf, st =>
    let line := sstrip raw
    if startsWithL line ['/', '/', '/'] then
      parseLoopF fuel rest (buf ++ [slashDocEntry line]) st
    else if startsWithL line ['/', '*'] then
      match bcAux raw rest with
      | .error e => .error e
      | .ok (es, n) =>
        parseLoopF fuel (rest.drop n)
          (buf ++ (blockFirstEntry line :: es).filter fun b => ¬ (b = "")) st
    else
      match matchNamespace line with
      | some nm => parseLoopF fuel rest buf (withNs st (some nm))
      | none =>
      match matchAttribute line with
      | some a => parseLoopF fuel rest buf (addAttr st a)
      | none =>
      match matchEnumHead line with
      | some (nm, bt) =>
        let cb := collectBlock (raw :: rest)
        (match parseEnumValues cb.1 with
         | .error e => .error e
         | .ok vs =>
           parseLoopF fuel ((raw :: rest).drop cb.2) []
             (putEnum st nm ⟨bt, vs, docOfBuf buf⟩))
      | none =>
      match matchKwName "union".data line with
      | some nm =>
        let cb := collectBlock (raw :: rest)
        let types := (((splitOnC ',' cb.1.data).map
            (stripP wsChar)).filter fun t => ¬ t.isEmpty).map
            fun t => (⟨t⟩ : String)
        parseLoopF fuel ((raw :: rest).drop cb.2) []
          (putUnion st nm ⟨types, docOfBuf buf⟩)
      | none =>
      match matchKwName "struct".data line with
      | some nm =>
        let cb := collectBlock (raw :: rest)
        parseLoopF fuel ((raw :: rest).drop cb.2) []
          (putStruct st nm ⟨parseFields cb.1 (localTypeNames st), docOfBuf buf⟩)
      | none =>
      match matchKwName "table".data line with
      | some nm =>
        let cb := collectBlock (raw :: rest)
        parseLoopF fuel ((raw :: rest).drop cb.2) []
          (putTable st nm ⟨parseFields cb.1 (localTypeNames st), docOfBuf buf⟩)
      | none =>
      match matchRootType line with
      | some rt => parseLoopF fuel rest buf (withRoot st (some rt))
      | none => parseLoopF fuel rest buf st

/-- `_parse_file` after the file has been read and split into lines. -/
def fbsParseLines (lines : List String) : Except PErr Document :=
  parseLoopF (lines.length + 1) lines [] emptyDocument

/-- `FBSParser(path).data`: a missing file (`None` content) is reported with
a warning and leaves the initial empty document; otherwise the file content
is split into lines and scanned.  An `Except.error` models an exception
escaping the constructor. -/
def fbsParseFile : Option String → Except PErr Document
  | none => .ok emptyDocument
  | some content => fbsParseLines (pySplitlines content)

/-! ### Accessors used by the theorems -/

/-- Did parsing produce a document (no exception)? -/
def parseOk (r : Except PErr Document) : Bool :=
  match r with
  | .ok _ => true
  | .error _ => false

/-- The named table of a parse result. -/
def getTable (r : Except PErr Document) (t : String) : Option TypeBody :=
  match r with
  | .ok d => lookupA d.tables t
  | .error _ => none

/-- The named field of the named table. -/
def getTableField (r : Except PErr Document) (t f : String) : Option FieldDef :=
  (getTable r t).bind fun tb => lookupA tb.fields f

/-- The `ref` entry of a table's field (outer `none`: no such table/field). -/
def tableFieldRef (r : Except PErr Document) (t f : String) :
    Option (Option String) :=
  (getTableField r t f).map fun fd => fd.ref

/-- The `type` entry of a table's field. -/
def tableFieldType (r : Except PErr Document) (t f : String) : Option String :=
  (getTableField r t f).map fun fd => fd.type

/-- The `default` entry of a table's field. -/
def tableFieldDefault (r : Except PErr Document) (t f : String) :
    Option (Option String) :=
  (getTableField r t f).map fun fd => fd.default

/-- The `metadata` entry of a table's field. -/
def tableFieldMeta (r : Except PErr Document) (t f : String) :
    Option (Option String) :=
  (getTableField r t f).map fun fd => fd.metadata

/-- The `doc` entry of a table. -/
def tableDoc (r : Except PErr Document) (t : String) : Option (Option String) :=
  (getTable r t).map fun tb => tb.doc

/-- The `values` mapping of the named enum. -/
def enumValues (r : Except PErr Document) (e : String) :
    Option (List (String × Option Int)) :=
  match r with
  | .ok d => (lookupA d.enums e).map fun ed => ed.values
  | .error _ => none

/-- The builtin scalar/string type names of the source
(`FLATBUFFERS_BUILTINS`); defined by `parser.py` but never consulted when
computing a field's `ref`. -/
def FLATBUFFERS_BUILTINS : List String :=
  ["bool", "byte", "ubyte",
   "short", "ushort", "int", "uint",
   "float", "double", "long", "ulong",
   "int8", "uint8", "int16", "uint16",
   "int32", "uint32", "int64", "uint64",
   "float32", "float64",
   "string"]

/-! ### Concrete schema inputs examined by the theorems -/

/-- A forward reference: `T1` uses `T2` before `T2` is declared. -/
def fwdRefLines : List String :=
  ["table T1 \x7b a: T2; \x7d", "table T2 \x7b x:int; \x7d"]

/-- The auto-increment example of the specification. -/
def autoIncLines : List String := ["enum E : int \x7b A, B = 5, C \x7d"]

/-- A table whose opening brace is never closed. -/
def unclosedBlockLines : List String := ["table T3 \x7b", "x:int;"]

/-- Vector-typed fields: `Bar` is declared before `Baz` uses `[Bar]`. -/
def vectorRefLines : List String :=
  ["table Bar \x7b x:int; \x7d",
   "table Baz \x7b", "xs:[Bar];", "ys:[int];", "\x7d"]

/-- A doc comment separated from the next table by a namespace line. -/
def docGapLines : List String :=
  ["/// docline", "namespace N;", "table B6 \x7b x:int; \x7d"]

/-- A local table shadowing the builtin type name `int`, declared before a
table with a field of type `int`. -/
def builtinShadowLines : List String :=
  ["table int \x7b x:int; \x7d", "table T7 \x7b y:int; \x7d"]

/-- A field with a metadata clause but no default clause. -/
def metaNoDefaultLines : List String :=
  ["table T8 \x7b id:int (deprecated); \x7d"]

/-- The metadata/default example of the specification. -/
def metaWithDefaultLines : List String :=
  ["table T8b \x7b id:int = 7 (deprecated); \x7d"]

/-- An enum whose explicit enumerator value is not a base-10 integer. -/
def badEnumValueLines : List String := ["enum Col : int \x7b A = xx \x7d"]

/-- Another enum with a malformed explicit value (`4u`). -/
def badEnumValueLines2 : List String :=
  ["enum Kind : byte \x7b P = 3, Q = 4u \x7d"]

/-- File content whose trailing line opens a block comment that is never
closed. -/
def unclosedCommentContent : String := "table T \x7b\n x:int;\n\x7d\n/* oops"

end Fbs

namespace Fbs

/-! ### Claim theorems -/

/-- C1: the specification claims that a field whose type names a table
declared anywhere in the same file gets that name as its `ref`, independent
of declaration order.  The code resolves `ref` against only the declarations
parsed so far: with `table T1 { a: T2; }` declared before `table T2`, the
parsed document does contain `T2`, yet `T1`'s field `a` has `ref = None`
instead of `"T2"`. -/
theorem c1_forward_ref_unresolved :
    tableFieldRef (fbsParseLines fwdRefLines) "T1" "a" = some none ∧
    (getTable (fbsParseLines fwdRefLines) "T2").isSome = true := by
  decide

/-- C2: the specification claims every enumerator stores a resolved integer
(auto-increment), so `enum E : int { A, B = 5, C }` gives A=0, B=5, C=6.
The code stores the null placeholder for every enumerator without an
explicit value: A and C come out as `None`. -/
theorem c2_enum_null_placeholders :
    enumValues (fbsParseLines autoIncLines) "E" =
      some [("A", none), ("B", some 5), ("C", none)] := by
  decide

/-- C3: the specification claims that running out of lines before the brace
depth of an opened block returns to zero is detected and reported as a parse
error.  The code detects nothing: on a table whose brace is never closed it
silently returns a populated document built from the truncated block. -/
theorem c3_unclosed_block_returns_document :
    parseOk (fbsParseLines unclosedBlockLines) = true ∧
    tableFieldType (fbsParseLines unclosedBlockLines) "T3" "x" = some "int" := by
  decide

/-- C4: parsing a path that does not exist yields the empty document —
namespace unset, attributes empty, every category map empty, root type
unset — and raises no exception (the warning log is a side effect outside
the embedding). -/
theorem c4_missing_file_empty_document :
    fbsParseFile none =
      Except.ok (⟨none, [], [], [], [], [], none⟩ : Document) := rfl

/-- C5: the specification claims `ref` is computed from the element type
with vector brackets removed, so `xs:[Bar];` with `Bar` a declared table
gets `ref = "Bar"`.  The code stores the bracketed type `"[Bar]"` and tests
that whole string against the local type names, so `ref` stays `None` even
though `Bar` was declared earlier; `ys:[int];` gets type `"[int]"` and empty
`ref` as claimed. -/
theorem c5_vector_ref_not_stripped :
    tableFieldType (fbsParseLines vectorRefLines) "Baz" "xs" = some "[Bar]" ∧
    tableFieldRef (fbsParseLines vectorRefLines) "Baz" "xs" = some none ∧
    tableFieldType (fbsParseLines vectorRefLines) "Baz" "ys" = some "[int]" ∧
    tableFieldRef (fbsParseLines vectorRefLines) "Baz" "ys" = some none := by
  decide

/-- C6 counterexample: the claim says a doc block separated from a
declaration by an unrelated non-comment line does not become that
declaration's doc, but with `/// docline` followed by a namespace line and
then `table B6 { ... }`, the table's doc is `"docline"`: the buffer survived
the namespace line and attached anyway. -/
theorem c6_doc_attaches_across_gap :
    tableDoc (fbsParseLines docGapLines) "B6" = some (some "docline") := by
  decide

/-- C6 amended: the pending doc buffer is consumed exactly when the next
enum/union/struct/table declaration is finalized, and no other line kind
clears it.  Part one: every non-comment line that opens none of the four
block forms — namespace, attribute, root_type, unrecognized and blank lines
alike — passes the buffer unchanged to the rest of the scan, with only the
document state possibly updated.  Parts two to five: each of the four
declaration
branches attaches the newline-joined buffer as the declaration's doc and
continues the scan with an empty buffer. -/
theorem c6_buffer_consumed_only_at_declarations (fuel : Nat) (raw : String)
    (rest buf : List String) (st : Document)
    (hs : startsWithL (sstrip raw) ['/', '/', '/'] = false)
    (hb : startsWithL (sstrip raw) ['/', '*'] = false) :
    (matchEnumHead (sstrip raw) = none →
     matchKwName "union".data (sstrip raw) = none →
     matchKwName "struct".data (sstrip raw) = none →
     matchKwName "table".data (sstrip raw) = none →
     ∃ st', parseLoopF (fuel + 1) (raw :: rest) buf st =
        parseLoopF fuel rest buf st') ∧
    (∀ nm bt vs,
     matchNamespace (sstrip raw) = none →
     matchAttribute (sstrip raw) = none →
     matchEnumHead (sstrip raw) = some (nm, bt) →
     parseEnumValues (collectBlock (raw :: rest)).1 = Except.ok vs →
     parseLoopF (fuel + 1) (raw :: rest) buf st =
       parseLoopF fuel ((raw :: rest).drop (collectBlock (raw :: rest)).2) []
         (putEnum st nm ⟨bt, vs, docOfBuf buf⟩)) ∧
    (∀ nm,
     matchNamespace (sstrip raw) = none →
     matchAttribute (sstrip raw) = none →
     matchEnumHead (sstrip raw) = none →
     matchKwName "union".data (sstrip raw) = some nm →
     parseLoopF (fuel + 1) (raw :: rest) buf st =
       parseLoopF fuel ((raw :: rest).drop (collectBlock (raw :: rest)).2) []
         (putUnion st nm ⟨(((splitOnC ',' (collectBlock (raw :: rest)).1.data).map
             (stripP wsChar)).filter fun t => ¬ t.isEmpty).map
             fun t => (⟨t⟩ : String), docOfBuf buf⟩)) ∧
    (∀ nm,
     matchNamespace (sstrip raw) = none →
     matchAttribute (sstrip raw) = none →
     matchEnumHead (sstrip raw) = none →
     matchKwName "union".data (sstrip raw) = none →
     matchKwName "struct".data (sstrip raw) = some nm →
     parseLoopF (fuel + 1) (raw :: rest) buf st =
       parseLoopF fuel ((raw :: rest).drop (collectBlock (raw :: rest)).2) []
         (putStruct st nm ⟨parseFields (collectBlock (raw :: rest)).1
             (localTypeNames st), docOfBuf buf⟩)) ∧
    (∀ nm,
     matchNamespace (sstrip raw) = none →
     matchAttribute (sstrip raw) = none →
     matchEnumHead (sstrip raw) = none →
     matchKwName "union".data (sstrip raw) = none →
     matchKwName "struct".data (sstrip raw) = none →
     matchKwName "table".data (sstrip raw) = some nm →
     parseLoopF (fuel + 1) (raw :: rest) buf st =
       parseLoopF fuel ((raw :: rest).drop (collectBlock (raw :: rest)).2) []
         (putTable st nm ⟨parseFields (collectBlock (raw :: rest)).1
             (localTypeNames st), docOfBuf buf⟩)) := by
  refine ⟨?_, ?_, ?_, ?_, ?_⟩
  · intro he hu hsr ht
    cases hns : matchNamespace (sstrip raw) with
    | some nm => exact ⟨withNs st (some nm), by simp [parseLoopF, hs, hb, hns]⟩
    | none =>
      cases hat : matchAttribute (sstrip raw) with
      | some a => exact ⟨addAttr st a, by simp [parseLoopF, hs, hb, hns, hat]⟩
      | none =>
        cases hrt : matchRootType (sstrip raw) with
        | some rt =>
          exact ⟨withRoot st (some rt),
            by simp [parseLoopF, hs, hb, hns, hat, he, hu, hsr, ht, hrt]⟩
        | none =>
          exact ⟨st, by simp [parseLoopF, hs, hb, hns, hat, he, hu, hsr, ht, hrt]⟩
  · intro nm bt vs hns hat he hvs
    simp [parseLoopF, hs, hb, hns, hat, he, hvs]
  · intro nm hns hat he hu
    simp [parseLoopF, hs, hb, hns, hat, he, hu]
  · intro nm hns hat he hu hsr
    simp [parseLoopF, hs, hb, hns, hat, he, hu, hsr]
  · intro nm hns hat he hu hsr ht
    simp [parseLoopF, hs, hb, hns, hat, he, hu, hsr, ht]

/-- C6 amended, witness: the pass-through part applied to a concrete
attribute line with a nonempty pending buffer. -/
theorem c6_buffer_consumed_only_at_declarations_witness :
    ∃ st', parseLoopF (0 + 1) ["attribute \"a6\";"] ["d6"] emptyDocument =
      parseLoopF 0 [] ["d6"] st' :=
  (c6_buffer_consumed_only_at_declarations 0 "attribute \"a6\";" [] ["d6"]
      emptyDocument (by decide) (by decide)).1
    (by decide) (by decide) (by decide) (by decide)

/-- C7: the specification claims builtin type names never populate `ref`,
even when a local declaration uses the same name.  The code never consults
`FLATBUFFERS_BUILTINS` when computing `ref`: after `table int { ... }` is
declared, a later field of builtin type `int` gets `ref = "int"`. -/
theorem c7_builtin_shadow_populates_ref :
    FLATBUFFERS_BUILTINS.contains "int" = true ∧
    tableFieldRef (fbsParseLines builtinShadowLines) "T7" "y" =
      some (some "int") := by
  decide

/-- C8 counterexample: the claim says the recorded metadata is the
parenthesised clause with its enclosing parentheses stripped whether or not
a default clause is present, but for `id:int (deprecated);` (no default) the
captured metadata group is `" (deprecated)"`, whose leading space stops
Python's `strip("()")` on the left, leaving `" (deprecated"`. -/
theorem c8_meta_without_default_keeps_paren :
    tableFieldMeta (fbsParseLines metaNoDefaultLines) "T8" "id" =
      some (some " (deprecated") := by
  decide

/-- C8 amended: the recorded metadata is the captured metadata group —
which includes any whitespace between the preceding token and the opening
parenthesis — with parenthesis characters stripped from both ends.  When a
default clause is present its greedy `[^()]+` run consumes up to the
parenthesis, the group starts at `(`, and the stripping works as the claim
states: `id:int = 7 (deprecated);` records default `"7"` and metadata
`"deprecated"`. -/
theorem c8_meta_with_default_stripped :
    tableFieldDefault (fbsParseLines metaWithDefaultLines) "T8b" "id" =
      some (some "7") ∧
    tableFieldMeta (fbsParseLines metaWithDefaultLines) "T8b" "id" =
      some (some "deprecated") := by
  decide

/-- C9 counterexample: the claim says a malformed explicit enumerator value
aborts the enum's construction with an error naming the enum and the
enumerator.  The abort happens, but the error is the bare `int()`
`ValueError`, whose message carries only the malformed literal: for
`enum Col : int { A = xx }` it mentions neither `Col` nor `A`. -/
theorem c9_enum_error_names_literal_only :
    fbsParseLines badEnumValueLines =
      Except.error (PErr.intParseError "xx") ∧
    strMentions (errText (PErr.intParseError "xx")) "Col" = false ∧
    strMentions (errText (PErr.intParseError "xx")) "A" = false :=
  ⟨rfl, by decide, by decide⟩

/-- C9 amended: an explicit enumerator value that does not parse as a
base-10 integer aborts that file's document construction — no partial
document is returned — with the propagated integer-conversion error naming
only the malformed literal. -/
theorem c9_enum_error_aborts_file :
    fbsParseLines badEnumValueLines2 =
      Except.error (PErr.intParseError "4u") := rfl

/-- C10: a file whose trailing line opens a block comment that is never
closed makes the scan for the closing marker walk past the end of the line
list, raising the out-of-range indexing error instead of returning a
document or reporting a parse diagnostic. -/
theorem c10_unclosed_comment_index_error :
    fbsParseFile (some unclosedCommentContent) =
      Except.error PErr.indexError := rfl

end Fbs
